import Mathlib

/-!
Verification of the GraphGallery supervised-training driver
(`graphgallery/nn/models/supervised/supervised_model.py`) and the
cross-framework wrapper (`graphgallery/nn/models/torch_keras.py`).

The drivers are embedded as executable Lean functions that produce the
sequence of observable actions (forward passes, history updates, callback
invocations, checkpoint file operations) that the Python code performs, in
program order.  Numerical results and the decisions of the `History` class
(whose code lives outside the two source files) enter as oracle parameters.
-/

/- ## Python string primitives -/

/-- Python `str.endswith`: suffix test on the sequence of code points. -/
def pyEndswith (s sfx : String) : Bool :=
  sfx.data.isSuffixOf s.data

/-- Python lexicographic `<` on strings, comparing code points position by
position; a proper prefix is smaller. -/
def pyStrLt : List Char → List Char → Bool
  | [], [] => false
  | [], _ :: _ => true
  | _ :: _, [] => false
  | a :: as, b :: bs =>
    if a < b then true
    else if b < a then false
    else pyStrLt as bs

/-- Python `>=` on strings (negation of lexicographic `<`). -/
def pyStrGe (a b : String) : Bool :=
  ! pyStrLt a.data b.data

/-- Python truthiness of the `early_stopping` argument (`None` or an int):
`None` and `0` are falsy, any other int is truthy. -/
def pyTruthy : Option Nat → Bool
  | none => false
  | some n => n != 0

/- ## Weight-file path normalization (C5) -/

/-- The path normalization appearing in `SupervisedModel.train`
(`if not log_path.endswith('.h5'): log_path += '.h5'`) and, with
`ext = gg.file_ext()`, in `TorchKeras.save_weights` / `load_weights` /
`save` / `load`. -/
def normalizeWeightPath (ext path : String) : String :=
  if pyEndswith path ext then path else path ++ ext

/-- The on-disk filepath that `TorchKeras.save_weights(filepath)` writes to
(`ext = gg.file_ext()` is a parameter: `gg.file_ext` is outside the two
source files). -/
def save_weights_filepath (ext filepath : String) : String :=
  if pyEndswith filepath ext then filepath else filepath ++ ext

/-- The on-disk filepath that `TorchKeras.load_weights(filepath)` reads
from. -/
def load_weights_filepath (ext filepath : String) : String :=
  if pyEndswith filepath ext then filepath else filepath ++ ext

/- ## `to_device` from torch_keras.py (C9) -/

/-- An abstract Python object as far as `to_device` is concerned: an
identity, a current device, and whether it has a `to` attribute (tensors
do, plain objects do not). -/
structure PyObj where
  oid : Nat
  device : String
  has_to : Bool
deriving DecidableEq

/-- `o.to(device)`: move the object to `device`. -/
def PyObj.to (o : PyObj) (device : String) : PyObj :=
  { o with device := device }

/-- A value passed to `to_device`: a single object, a Python list, or a
Python tuple of objects. -/
inductive PyVal where
  | obj (o : PyObj)
  | lst (xs : List PyObj)
  | tup (xs : List PyObj)
deriving DecidableEq

/-- Python `hasattr(v, 'to')`: lists and tuples never have a `to`
attribute; a single object has one exactly when it is a tensor-like. -/
def hasattrTo : PyVal → Bool
  | PyVal.obj o => o.has_to
  | PyVal.lst _ => false
  | PyVal.tup _ => false

/-- The elements iterated over by `for _x in x`. -/
def pyElems : PyVal → List PyObj
  | PyVal.obj o => [o]
  | PyVal.lst xs => xs
  | PyVal.tup xs => xs

/-- The `x` half of `to_device`: wrap a non-list/tuple into a one-element
list, then map `_x.to(device) if hasattr(x, 'to') else _x` over it.  Note
the guard tests `hasattr` on the enclosing value `x`, not on the element
`_x`, exactly as in the source. -/
def to_device_x (x : PyVal) (device : String) : List PyObj :=
  let x1 : PyVal :=
    match x with
    | PyVal.obj o => PyVal.lst [o]
    | other => other
  (pyElems x1).map fun ox => if hasattrTo x1 then ox.to device else ox

/-- The result of the `y` half of `to_device`: either a mapped list or a
single moved object. -/
inductive ToDeviceY where
  | mapped (xs : List PyObj)
  | moved1 (o : PyObj)
deriving DecidableEq

/-- The `y` half of `to_device`: a list/tuple is mapped with the guard
`hasattr(y, 'to')` (again tested on the enclosing value `y`), anything
else is moved with `y.to(device)`. -/
def to_device_y (y : PyVal) (device : String) : ToDeviceY :=
  match y with
  | PyVal.lst ys =>
    ToDeviceY.mapped (ys.map fun oy => if hasattrTo (PyVal.lst ys) then oy.to device else oy)
  | PyVal.tup ys =>
    ToDeviceY.mapped (ys.map fun oy => if hasattrTo (PyVal.tup ys) then oy.to device else oy)
  | PyVal.obj o => ToDeviceY.moved1 (o.to device)

/-- `to_device(x, y=None, device='cpu')` from torch_keras.py. -/
def to_device (x : PyVal) (y : Option PyVal) (device : String) :
    List PyObj × Option ToDeviceY :=
  (to_device_x x device, y.map fun yv => to_device_y yv device)

/- ## Observable events of the supervised drivers -/

/-- One observable action of `SupervisedModel.train` / `train_v2` / `test`
/ `predict`, in program order.  `forward true` is `do_forward(train_data)`
(a `train_on_batch` pass), `forward false` a `test_on_batch` pass;
`seq_epoch_end` is `train_data.on_epoch_end()`; `save`/`load`/`remove` are
the checkpoint file operations; the `on_*` constructors are the
`tf.keras` callback invocations of `train_v2`. -/
inductive Ev where
  | do_before_train
  | do_before_validation
  | do_before_test
  | do_before_predict
  | forward (training : Bool)
  | seq_epoch_end
  | add_results (metric : String)
  | record_epoch (epoch : Nat)
  | save (path : String)
  | load (path : String)
  | remove (path : String)
  | on_train_begin
  | on_epoch_begin (epoch : Nat)
  | on_train_batch_begin (batch : Nat)
  | on_train_batch_end (batch : Nat)
  | on_epoch_end (epoch : Nat)
  | on_train_end
deriving DecidableEq

/-- Modelled from the spec: the `History` class
(`graphgallery.utils.history`, not under src) is "an ordered record of
per-epoch metrics used to decide checkpointing and early stopping".  Only
its registered metric names are modelled as state; its per-epoch
improvement decisions (`save_best`, `time_to_early_stopping`) enter the
drivers as oracle predicates. -/
structure History where
  monitor_metric : String
  early_stop_metric : String
deriving DecidableEq

/-- Modelled from the spec: `History.register_monitor_metric` replaces the
monitored metric name. -/
def History.register_monitor_metric (h : History) (metric : String) : History :=
  { h with monitor_metric := metric }

/-- Modelled from the spec: `History.register_early_stop_metric` replaces
the early-stopping metric name. -/
def History.register_early_stop_metric (h : History) (metric : String) : History :=
  { h with early_stop_metric := metric }

/-- An index argument: either an already-built `keras.utils.Sequence`
(`Idx.seq`) or an array-like list of node ids (`Idx.arr`). -/
inductive Idx where
  | seq
  | arr (v : List Nat)
deriving DecidableEq

/-- The attributes of the model object that the drivers read or write:
the `built` flag, `self.log_path`, the ground-truth `labels`, and the
three index attributes. -/
structure ModelState where
  built : Bool
  log_path : String
  labels : List Nat
  index_train : Option (List Nat)
  index_val : Option (List Nat)
  index_test : Option (List Nat)
deriving DecidableEq

/-- Modelled from the spec: `BaseModel.to_int` (not under src) converts an
index to the framework integer dtype; on the abstract index it is the
identity. -/
def to_int (v : List Nat) : List Nat := v

/-- The quantities the drivers consume but do not compute themselves:
whether the `do_before_*` hooks are set, and the decisions of the history
object and of the `tf.keras` callbacks.  `saveBestAt e` is
`history.save_best` right after `history.record_epoch(e)`; `timeToES p e`
is `history.time_to_early_stopping(p)` at the end of epoch `e`;
`stopTraining e` is `model.stop_training` right after
`callbacks.on_epoch_end(e)` in `train_v2`. -/
structure Oracles where
  hasDoBeforeTrain : Bool
  hasDoBeforeValidation : Bool
  hasDoBeforeTest : Bool
  hasDoBeforePredict : Bool
  saveBestAt : Nat → Bool
  timeToES : Nat → Nat → Bool
  stopTraining : Nat → Bool

/-- `self.index_train = self.to_int(index_train)`, performed only when the
argument is not already a `Sequence`. -/
def applyIndexTrain (m : ModelState) (it : Idx) : ModelState :=
  match it with
  | Idx.seq => m
  | Idx.arr v => { m with index_train := some (to_int v) }

/-- `self.index_val = self.to_int(index_val)`, performed only when
validation is used and the argument is not already a `Sequence`. -/
def applyIndexVal (m : ModelState) (iv : Option Idx) : ModelState :=
  match iv with
  | some (Idx.arr v) => { m with index_val := some (to_int v) }
  | _ => m

/-- `log_path if log_path is not None else self.log_path`. -/
def resolvedLogPath (m : ModelState) (log_path : Option String) : String :=
  match log_path with
  | none => m.log_path
  | some p => p

/-- The events of one epoch of the body of `SupervisedModel.train`
(source lines 166-204): optional `do_before_train`, the training forward
pass, `train_data.on_epoch_end()`, `add_results` for `loss` and `acc`, the
validation block when `index_val` was given, `record_epoch`, and a
checkpoint `save` when `save_best and history.save_best`. -/
def epochEvents (o : Oracles) (validation save_best : Bool) (log_path : String)
    (epoch : Nat) : List Ev :=
  (if o.hasDoBeforeTrain then [Ev.do_before_train] else [])
    ++ [Ev.forward true, Ev.seq_epoch_end, Ev.add_results "loss", Ev.add_results "acc"]
    ++ (if validation then
          (if o.hasDoBeforeValidation then [Ev.do_before_validation] else [])
            ++ [Ev.forward false, Ev.add_results "val_loss", Ev.add_results "val_acc"]
        else [])
    ++ [Ev.record_epoch epoch]
    ++ (if save_best && o.saveBestAt epoch then [Ev.save log_path] else [])

/-- A `for`-loop over `epochs` that emits `chunk e` for each epoch and
`break`s right after the first epoch whose trigger fires.  Instantiated
with the early-stopping trigger in `train` and with `model.stop_training`
in `train_v2`. -/
def loopUntil (chunk : Nat → List Ev) (trig : Nat → Bool) : List Nat → List Ev
  | [] => []
  | e :: rest => chunk e ++ (if trig e then [] else loopUntil chunk trig rest)

/-- The `if save_best:` epilogue of both training loops: reload the best
weights from the checkpoint and delete the checkpoint file. -/
def saveTail (save_best : Bool) (log_path : String) : List Ev :=
  if save_best then [Ev.load log_path, Ev.remove log_path] else []

def builtErrorMsg : String :=
  "You must compile your model before training/testing/predicting. Use `model.build()`."

def versionErrorMsg : String :=
  "This method is only work for tensorflow version >= 2.2.0."

/-- The result of a successful `SupervisedModel.train` call: the emitted
event trace, the returned history, and the updated model attributes. -/
structure TrainOut where
  trace : List Ev
  history : History
  state : ModelState
deriving DecidableEq

/-- `SupervisedModel.train` (source lines 79-210).  Raises when the model
is not built; otherwise stores the integer indices, builds the history
(re-registering `acc`/`loss` when no validation set is given), normalizes
`log_path` with the `.h5` extension, runs the epoch loop with the
early-stopping trigger `early_stopping and
history.time_to_early_stopping(early_stopping)`, and with `save_best`
reloads and deletes the checkpoint after the loop.  `verbose` (progress
display only) and `save_model` (serialization format only) are omitted. -/
def train (m : ModelState) (o : Oracles) (index_train : Idx) (index_val : Option Idx)
    (epochs : Nat) (early_stopping : Option Nat) (save_best : Bool)
    (log_path : Option String) (monitor early_stop_metric : String) :
    Except String TrainOut :=
  if !m.built then
    Except.error builtErrorMsg
  else
    let m1 := applyIndexTrain m index_train
    let validation := index_val.isSome
    let m2 := applyIndexVal m1 index_val
    let history0 := History.mk monitor early_stop_metric
    let lp := normalizeWeightPath ".h5" (resolvedLogPath m2 log_path)
    let history1 :=
      if !validation then
        (history0.register_monitor_metric "acc").register_early_stop_metric "loss"
      else history0
    let trig := fun e => pyTruthy early_stopping && o.timeToES (early_stopping.getD 0) e
    let body := loopUntil (epochEvents o validation save_best lp) trig (List.range' 1 epochs)
    Except.ok ⟨body ++ saveTail save_best lp, history1, m2⟩

/-- The events of one epoch of the body of `SupervisedModel.train_v2`
(source lines 327-350): `on_epoch_begin`, optional `do_before_train`,
`on_train_batch_begin(0)`, the training forward pass,
`train_data.on_epoch_end()`, `on_train_batch_end(0, logs)`, the
validation block, and `on_epoch_end(epoch, logs)`. -/
def epochEventsV2 (o : Oracles) (validation : Bool) (epoch : Nat) : List Ev :=
  [Ev.on_epoch_begin epoch]
    ++ (if o.hasDoBeforeTrain then [Ev.do_before_train] else [])
    ++ [Ev.on_train_batch_begin 0, Ev.forward true, Ev.seq_epoch_end,
        Ev.on_train_batch_end 0]
    ++ (if validation then
          (if o.hasDoBeforeValidation then [Ev.do_before_validation] else [])
            ++ [Ev.forward false]
        else [])
    ++ [Ev.on_epoch_end epoch]

/-- The result of a successful `SupervisedModel.train_v2` call: the
emitted event trace and the updated model attributes (the returned
`model.history` is owned by `tf.keras`). -/
structure TrainV2Out where
  trace : List Ev
  state : ModelState
deriving DecidableEq

/-- `SupervisedModel.train_v2` (source lines 212-360).  Raises when
`not tf.__version__ >= '2.2.0'` (Python string comparison), then when the
model is not built; otherwise stores the indices, runs
`callbacks.on_train_begin()`, the epoch loop over `range(epochs)`
breaking right after the first epoch with `model.stop_training`,
`callbacks.on_train_end()`, and with `save_best` the checkpoint
reload-and-delete epilogue on the `.h5`-normalized `log_path`.  The
callback-list construction and the `EarlyStopping` / `ModelCheckpoint`
callbacks act only through the `stopTraining` and `saveBestAt` oracles;
`verbose`, `save_model` and the (empty) allowed kwargs are omitted. -/
def train_v2 (tf_version : String) (m : ModelState) (o : Oracles)
    (index_train : Idx) (index_val : Option Idx)
    (epochs : Nat) (early_stopping : Option Nat) (save_best : Bool)
    (log_path : Option String) : Except String TrainV2Out :=
  if !(pyStrGe tf_version "2.2.0") then
    Except.error versionErrorMsg
  else if !m.built then
    Except.error builtErrorMsg
  else
    let m1 := applyIndexTrain m index_train
    let validation := index_val.isSome
    let m2 := applyIndexVal m1 index_val
    let lp := normalizeWeightPath ".h5" (resolvedLogPath m2 log_path)
    let body :=
      [Ev.on_train_begin]
        ++ loopUntil (epochEventsV2 o validation) o.stopTraining (List.range epochs)
        ++ [Ev.on_train_end]
    Except.ok ⟨body ++ saveTail save_best lp, m2⟩

/-- `SupervisedModel.test` (source lines 362-402): built guard, store
`index_test`, optional `do_before_test`, one evaluation forward pass. -/
def test (m : ModelState) (o : Oracles) (index : Idx) :
    Except String (List Ev × ModelState) :=
  if !m.built then
    Except.error builtErrorMsg
  else
    let m1 :=
      match index with
      | Idx.seq => m
      | Idx.arr v => { m with index_test := some (to_int v) }
    Except.ok ((if o.hasDoBeforeTest then [Ev.do_before_test] else [])
      ++ [Ev.forward false], m1)

/-- `SupervisedModel.predict` (source lines 448-476): built guard,
optional `do_before_predict`, and then — the method body having no
`return` statement — Python's implicit `None`, modelled as `none` in
place of the documented probability matrix. -/
def predict (m : ModelState) (o : Oracles) (index : Idx) :
    Except String (List Ev × Option (List (List Int))) :=
  if !m.built then
    Except.error builtErrorMsg
  else
    Except.ok ((if o.hasDoBeforePredict then [Ev.do_before_predict] else []), none)

/-- `np.argmax` along a row: index of the first occurrence of the
maximum. -/
def rowArgmax (row : List Int) : Nat :=
  row.indexOf (row.foldl max (row.headD 0))

/-- `(predict_class == labels).mean()` as an exact rational. -/
def meanEq (a b : List Nat) : ℚ :=
  ((a.zip b).countP fun p => p.1 == p.2 : ℚ) / ((a.zip b).length : ℚ)

def argmaxNoneMsg : String :=
  "AttributeError: NoneType object has no attribute argmax"

/-- `SupervisedModel.test_predict` (source lines 515-539): convert the
index, call `predict`, then `logit.argmax(1)` — which on the base class's
`None` raises an `AttributeError`. -/
def test_predict (m : ModelState) (o : Oracles) (index : List Nat) :
    Except String (List Ev × ℚ) :=
  let index1 := to_int index
  match predict m o (Idx.arr index1) with
  | Except.error e => Except.error e
  | Except.ok (evs, none) => Except.error argmaxNoneMsg
  | Except.ok (evs, some logit) =>
    let predict_class := logit.map rowArgmax
    let labels := index1.map fun i => m.labels.getD i 0
    Except.ok (evs, meanEq predict_class labels)

/- ## A file-system model for the checkpoint operations (C4, C5) -/

/-- Effect of one event on the set of files on disk: `save` (over)writes
the file, `load` requires it to exist, `remove` (`os.remove`) deletes it
and raises when it does not exist; all other events leave the disk
alone. -/
def stepFS (fs : List String) : Ev → Except String (List String)
  | Ev.save p => Except.ok (p :: fs.filter fun q => q != p)
  | Ev.load p => if p ∈ fs then Except.ok fs else Except.error "checkpoint file not found"
  | Ev.remove p =>
    if p ∈ fs then Except.ok (fs.filter fun q => q != p)
    else Except.error "FileNotFoundError"
  | _ => Except.ok fs

/-- Run a trace against the disk, propagating the first failure. -/
def runFS (fs : List String) : List Ev → Except String (List String)
  | [] => Except.ok fs
  | e :: rest =>
    match stepFS fs e with
    | Except.ok fs2 => runFS fs2 rest
    | Except.error msg => Except.error msg

/- ## Trace observables -/

def isRecordEpoch : Ev → Bool
  | Ev.record_epoch _ => true
  | _ => false

/-- Number of epochs a trace actually ran (`history.record_epoch` fires
exactly once per executed epoch). -/
def epochsRun (t : List Ev) : Nat :=
  t.countP isRecordEpoch

def isSaveEv : Ev → Bool
  | Ev.save _ => true
  | _ => false

def isOnTrainBegin : Ev → Bool
  | Ev.on_train_begin => true
  | _ => false

def isOnTrainEnd : Ev → Bool
  | Ev.on_train_end => true
  | _ => false

def isAddResults (metric : String) : Ev → Bool
  | Ev.add_results n => n == metric
  | _ => false

/-- The trace of a driver result (empty on an exception). -/
def traceOf : Except String TrainOut → List Ev
  | Except.ok r => r.trace
  | Except.error _ => []

/-- The history of a `train` result (defaults on an exception). -/
def histOf : Except String TrainOut → History
  | Except.ok r => r.history
  | Except.error _ => History.mk "" ""

/-- The trace of a `train_v2` result (empty on an exception). -/
def traceOfV2 : Except String TrainV2Out → List Ev
  | Except.ok r => r.trace
  | Except.error _ => []

/-- The final disk contents of a `runFS` run (a marker on failure). -/
def fsOf : Except String (List String) → List String
  | Except.ok fs => fs
  | Except.error _ => ["FSERROR"]

/- ## Concrete fixtures used by the witnesses -/

/-- A built model with no hooks and empty indices. -/
def wModel : ModelState :=
  { built := true, log_path := "log/model_weights", labels := [],
    index_train := none, index_val := none, index_test := none }

/-- The same model before `build()` was called. -/
def wModelUnbuilt : ModelState :=
  { wModel with built := false }

/-- Oracles with no hooks set, `history.save_best` always true,
early stopping triggering at epoch 2, and `stop_training` never set. -/
def wOracles : Oracles :=
  { hasDoBeforeTrain := false, hasDoBeforeValidation := false,
    hasDoBeforeTest := false, hasDoBeforePredict := false,
    saveBestAt := fun _ => true, timeToES := fun _ e => e == 2,
    stopTraining := fun _ => false }

/-- Oracles whose early-stopping predicate holds at every epoch. -/
def wOraclesESAlways : Oracles :=
  { wOracles with timeToES := fun _ _ => true }

/-- Oracles where `model.stop_training` becomes true after epoch 1. -/
def wOraclesStop1 : Oracles :=
  { wOracles with stopTraining := fun e => e == 1 }

/- ## Helper lemmas about the loop and the traces -/

theorem loopUntil_noTrig (chunk : Nat → List Ev) (trig : Nat → Bool) (l : List Nat)
    (h : ∀ e ∈ l, trig e = false) :
    loopUntil chunk trig l = l.flatMap chunk := by
  induction l with
  | nil => simp [loopUntil]
  | cons e rest ih =>
    simp only [loopUntil, h e (List.mem_cons_self e rest), List.flatMap_cons,
      Bool.false_eq_true, if_false]
    rw [ih fun x hx => h x (List.mem_cons_of_mem e hx)]

theorem loopUntil_firstTrig (chunk : Nat → List Ev) (trig : Nat → Bool)
    (l1 l2 : List Nat) (e0 : Nat)
    (h1 : ∀ e ∈ l1, trig e = false) (h2 : trig e0 = true) :
    loopUntil chunk trig (l1 ++ e0 :: l2) = (l1 ++ [e0]).flatMap chunk := by
  induction l1 with
  | nil => simp [loopUntil, h2]
  | cons a as ih =>
    simp only [List.cons_append, loopUntil, h1 a (List.mem_cons_self a as),
      Bool.false_eq_true, if_false, List.flatMap_cons, List.append_eq]
    rw [ih fun x hx => h1 x (List.mem_cons_of_mem a hx)]

theorem loopUntil_exists_flatMap (chunk : Nat → List Ev) (trig : Nat → Bool)
    (l : List Nat) :
    ∃ l2, l2 ⊆ l ∧ loopUntil chunk trig l = l2.flatMap chunk := by
  induction l with
  | nil => exact ⟨[], by simp, by simp [loopUntil]⟩
  | cons e rest ih =>
    by_cases he : trig e
    · exact ⟨[e], by simp, by simp [loopUntil, he]⟩
    · obtain ⟨l2, hsub, heq⟩ := ih
      refine ⟨e :: l2, ?_, ?_⟩
      · exact List.cons_subset_cons e hsub
      · simp [loopUntil, he, heq]

theorem mem_loopUntil (chunk : Nat → List Ev) (trig : Nat → Bool)
    (l : List Nat) (x : Ev) (hx : x ∈ loopUntil chunk trig l) :
    ∃ e ∈ l, x ∈ chunk e := by
  obtain ⟨l2, hsub, heq⟩ := loopUntil_exists_flatMap chunk trig l
  rw [heq] at hx
  obtain ⟨e, he, hxe⟩ := List.mem_flatMap.mp hx
  exact ⟨e, hsub he, hxe⟩

theorem countP_flatMap_ones (p : Ev → Bool) (chunk : Nat → List Ev) (l : List Nat)
    (h : ∀ e ∈ l, (chunk e).countP p = 1) :
    (l.flatMap chunk).countP p = l.length := by
  induction l with
  | nil => simp
  | cons e rest ih =>
    simp only [List.flatMap_cons, List.countP_append, List.length_cons,
      h e (List.mem_cons_self e rest)]
    rw [ih fun x hx => h x (List.mem_cons_of_mem e hx)]
    omega

theorem countP_flatMap_zero (p : Ev → Bool) (chunk : Nat → List Ev) (l : List Nat)
    (h : ∀ e ∈ l, (chunk e).countP p = 0) :
    (l.flatMap chunk).countP p = 0 := by
  induction l with
  | nil => simp
  | cons e rest ih =>
    simp only [List.flatMap_cons, List.countP_append,
      h e (List.mem_cons_self e rest)]
    rw [ih fun x hx => h x (List.mem_cons_of_mem e hx)]

theorem countP_loopUntil_zero (p : Ev → Bool) (chunk : Nat → List Ev)
    (trig : Nat → Bool) (l : List Nat)
    (h : ∀ e ∈ l, (chunk e).countP p = 0) :
    (loopUntil chunk trig l).countP p = 0 := by
  obtain ⟨l2, hsub, heq⟩ := loopUntil_exists_flatMap chunk trig l
  rw [heq]
  exact countP_flatMap_zero p chunk l2 fun e he => h e (hsub he)

theorem resolvedLogPath_applyIndex (m : ModelState) (it : Idx) (iv : Option Idx)
    (lp : Option String) :
    resolvedLogPath (applyIndexVal (applyIndexTrain m it) iv) lp = resolvedLogPath m lp := by
  cases lp with
  | some p => rfl
  | none =>
    cases it <;> rcases iv with _ | ⟨_ | _⟩ <;>
      simp [applyIndexTrain, applyIndexVal, resolvedLogPath]

theorem train_ok (m : ModelState) (o : Oracles) (it : Idx) (iv : Option Idx)
    (epochs : Nat) (es : Option Nat) (sb : Bool) (lp : Option String)
    (mon esm : String) (hb : m.built = true) :
    train m o it iv epochs es sb lp mon esm
      = Except.ok
          ⟨loopUntil (epochEvents o iv.isSome sb (normalizeWeightPath ".h5" (resolvedLogPath m lp)))
              (fun e => pyTruthy es && o.timeToES (es.getD 0) e)
              (List.range' 1 epochs)
            ++ saveTail sb (normalizeWeightPath ".h5" (resolvedLogPath m lp)),
           (if !iv.isSome then
              ((History.mk mon esm).register_monitor_metric "acc").register_early_stop_metric "loss"
            else History.mk mon esm),
           applyIndexVal (applyIndexTrain m it) iv⟩ := by
  rw [train]
  rw [hb]
  simp [resolvedLogPath_applyIndex]

theorem train_v2_ok (v : String) (m : ModelState) (o : Oracles) (it : Idx)
    (iv : Option Idx) (epochs : Nat) (es : Option Nat) (sb : Bool)
    (lp : Option String) (hb : m.built = true) (hv : pyStrGe v "2.2.0" = true) :
    train_v2 v m o it iv epochs es sb lp
      = Except.ok
          ⟨([Ev.on_train_begin]
              ++ loopUntil (epochEventsV2 o iv.isSome) o.stopTraining (List.range epochs)
              ++ [Ev.on_train_end])
            ++ saveTail sb (normalizeWeightPath ".h5" (resolvedLogPath m lp)),
           applyIndexVal (applyIndexTrain m it) iv⟩ := by
  rw [train_v2]
  rw [hb, hv]
  simp [resolvedLogPath_applyIndex]

theorem countP_record_epochEvents (o : Oracles) (val sb : Bool) (lp : String) (e : Nat) :
    (epochEvents o val sb lp e).countP isRecordEpoch = 1 := by
  cases hd : o.hasDoBeforeTrain <;> cases hv2 : o.hasDoBeforeValidation <;>
    cases val <;> cases hsb : (sb && o.saveBestAt e) <;>
      simp [epochEvents, hd, hv2, hsb, List.countP_append, List.countP_cons, isRecordEpoch]

theorem countP_record_saveTail (sb : Bool) (lp : String) :
    (saveTail sb lp).countP isRecordEpoch = 0 := by
  cases sb <;> simp [saveTail, List.countP_cons, isRecordEpoch]

theorem epochsRun_train (m : ModelState) (o : Oracles) (it : Idx) (iv : Option Idx)
    (epochs : Nat) (es : Option Nat) (sb : Bool) (lp : Option String)
    (mon esm : String) (hb : m.built = true) :
    epochsRun (traceOf (train m o it iv epochs es sb lp mon esm))
      = (loopUntil (epochEvents o iv.isSome sb (normalizeWeightPath ".h5" (resolvedLogPath m lp)))
          (fun e => pyTruthy es && o.timeToES (es.getD 0) e)
          (List.range' 1 epochs)).countP isRecordEpoch := by
  rw [train_ok m o it iv epochs es sb lp mon esm hb]
  simp [traceOf, epochsRun, List.countP_append, countP_record_saveTail]

theorem pyEndswith_append (p ext : String) : pyEndswith (p ++ ext) ext = true := by
  simp only [pyEndswith, String.data_append, List.isSuffixOf_iff_suffix]
  exact List.suffix_append p.data ext.data

/- ## Claim theorems -/

/-- Claim C5: weight-file path normalization is a pure function that
appends the extension exactly when the path does not already end with it;
it is idempotent; `TorchKeras.save_weights` and `TorchKeras.load_weights`
resolve a given `filepath` to the same on-disk file, so a save followed by
a load with the same argument round-trips through that file. -/
theorem claim_C5_path_normalization (ext p : String) :
    (pyEndswith p ext = true → normalizeWeightPath ext p = p)
  ∧ (pyEndswith p ext = false → normalizeWeightPath ext p = p ++ ext)
  ∧ normalizeWeightPath ext (normalizeWeightPath ext p) = normalizeWeightPath ext p
  ∧ save_weights_filepath ext p = load_weights_filepath ext p
  ∧ save_weights_filepath ext p = normalizeWeightPath ext p
  ∧ ∀ fs : List String, ∃ fs2,
      stepFS fs (Ev.save (save_weights_filepath ext p)) = Except.ok fs2
      ∧ stepFS fs2 (Ev.load (load_weights_filepath ext p)) = Except.ok fs2 := by
  refine ⟨fun h => by simp [normalizeWeightPath, h],
          fun h => by simp [normalizeWeightPath, h], ?_, rfl, rfl, ?_⟩
  · by_cases h : pyEndswith p ext = true
    · simp [normalizeWeightPath, h]
    · simp only [Bool.not_eq_true] at h
      simp [normalizeWeightPath, h, pyEndswith_append]
  · intro fs
    refine ⟨save_weights_filepath ext p :: fs.filter fun q => q != save_weights_filepath ext p,
      rfl, ?_⟩
    have hmem : load_weights_filepath ext p
        ∈ save_weights_filepath ext p :: fs.filter fun q => q != save_weights_filepath ext p :=
      List.mem_cons_self _ _
    simp [stepFS, hmem]

/-- Witness for C5 at `ext = ".h5"`, `p = "w"`. -/
theorem claim_C5_witness :
    normalizeWeightPath ".h5" (normalizeWeightPath ".h5" "w")
      = normalizeWeightPath ".h5" "w" :=
  (claim_C5_path_normalization ".h5" "w").2.2.1

/-- Claim C9: `to_device` returns list/tuple inputs with every element
unchanged regardless of the device, because the guard tests `hasattr` on
the enclosing list (always false); a wrapped non-list `x` also comes back
unmoved as `[x]`; only a non-list `y` is actually moved with
`y.to(device)`. -/
theorem claim_C9_to_device (xs ys : List PyObj) (o : PyObj) (y : PyVal)
    (device : String) :
    to_device_x (PyVal.lst xs) device = xs
  ∧ to_device_x (PyVal.tup xs) device = xs
  ∧ to_device_y (PyVal.lst ys) device = ToDeviceY.mapped ys
  ∧ to_device_y (PyVal.tup ys) device = ToDeviceY.mapped ys
  ∧ to_device_x (PyVal.obj o) device = [o]
  ∧ to_device_y (PyVal.obj o) device = ToDeviceY.moved1 (o.to device)
  ∧ to_device (PyVal.obj o) (some y) device = ([o], some (to_device_y y device)) := by
  refine ⟨?_, ?_, ?_, ?_, ?_, rfl, ?_⟩ <;>
    simp [to_device, to_device_x, to_device_y, hasattrTo, pyElems]

/-- Claim C10: `train_v2` raises exactly when the version string is
lexicographically below `'2.2.0'`; `'2.10.0'` (numerically newer) is
below it and raises, while any string at or above `'2.2.0'` in string
order passes the guard. -/
theorem claim_C10_version_guard (v : String) (m : ModelState) (o : Oracles)
    (it : Idx) (iv : Option Idx) (epochs : Nat) (es : Option Nat) (sb : Bool)
    (lp : Option String) :
    (pyStrLt v.data ("2.2.0" : String).data = true →
      train_v2 v m o it iv epochs es sb lp = Except.error versionErrorMsg)
  ∧ (pyStrLt v.data ("2.2.0" : String).data = false →
      train_v2 v m o it iv epochs es sb lp ≠ Except.error versionErrorMsg)
  ∧ pyStrLt ("2.10.0" : String).data ("2.2.0" : String).data = true
  ∧ pyStrLt ("2.2.0" : String).data ("2.2.0" : String).data = false
  ∧ pyStrLt ("2.2.1" : String).data ("2.2.0" : String).data = false := by
  refine ⟨?_, ?_, by decide, by decide, by decide⟩
  · intro h
    rw [train_v2]
    simp [pyStrGe, h]
  · intro h
    rw [train_v2]
    simp only [pyStrGe, h, Bool.not_false, Bool.not_true, if_false]
    cases hb : m.built <;> simp [hb] <;> decide

/-- Witness for C10: with tensorflow version `'2.10.0'` the call raises
the version error. -/
theorem claim_C10_witness :
    train_v2 "2.10.0" wModel wOracles Idx.seq none 3 none true none
      = Except.error versionErrorMsg :=
  (claim_C10_version_guard "2.10.0" wModel wOracles Idx.seq none 3 none true none).1
    (by decide)

/-- Claim C2: on a model whose `built` attribute is falsy, `train`,
`train_v2` and `test` all raise a `RuntimeError` immediately: the result
is an exception carrying no trace (no sequence construction, no epoch)
and no updated state (no index attribute is modified).  For `train_v2`
the version guard may fire first, but that too is a `RuntimeError` raised
before anything else happens. -/
theorem claim_C2_built_guard (v : String) (m : ModelState) (o : Oracles)
    (it : Idx) (iv : Option Idx) (epochs : Nat) (es : Option Nat) (sb : Bool)
    (lp : Option String) (mon esm : String) (idx : Idx)
    (hb : m.built = false) :
    train m o it iv epochs es sb lp mon esm = Except.error builtErrorMsg
  ∧ test m o idx = Except.error builtErrorMsg
  ∧ (train_v2 v m o it iv epochs es sb lp = Except.error builtErrorMsg
      ∨ train_v2 v m o it iv epochs es sb lp = Except.error versionErrorMsg) := by
  refine ⟨by rw [train]; simp [hb], by rw [test.eq_def]; simp [hb], ?_⟩
  by_cases hv : pyStrGe v "2.2.0" = true
  · left
    rw [train_v2]
    simp [hv, hb]
  · right
    simp only [Bool.not_eq_true] at hv
    rw [train_v2]
    simp [hv]

/-- Witness for C2 on an unbuilt model. -/
theorem claim_C2_witness :
    train wModelUnbuilt wOracles Idx.seq none 3 none true none "val_acc" "val_loss"
      = Except.error builtErrorMsg :=
  (claim_C2_built_guard "2.2.0" wModelUnbuilt wOracles Idx.seq none 3 none true
    none "val_acc" "val_loss" Idx.seq rfl).1

/-- Claim C8: on a built model the base-class `predict` runs the
`do_before_predict` hook (when set) and returns Python `None` instead of
the documented probability matrix, so `test_predict`, which calls
`.argmax(1)` on that result, always raises. -/
theorem claim_C8_predict_none (m : ModelState) (o : Oracles) (idx : Idx)
    (ixs : List Nat) (hb : m.built = true) :
    predict m o idx
      = Except.ok ((if o.hasDoBeforePredict then [Ev.do_before_predict] else []), none)
  ∧ (∀ evs r, predict m o idx = Except.ok (evs, r) → r = none)
  ∧ test_predict m o ixs = Except.error argmaxNoneMsg := by
  refine ⟨by rw [predict]; simp [hb], ?_, ?_⟩
  · intro evs r h
    rw [predict] at h
    simp [hb] at h
    exact h.2.symm
  · rw [test_predict, predict]
    simp [hb]

/-- Witness for C8 on the built fixture model. -/
theorem claim_C8_witness :
    test_predict wModel wOracles [0] = Except.error argmaxNoneMsg :=
  (claim_C8_predict_none wModel wOracles Idx.seq [0] rfl).2.2

/-- Claim C1 (amended): with a truthy `early_stopping` the epoch loop of
`train` halts immediately after the first epoch at whose end
`history.time_to_early_stopping(early_stopping)` holds — so it runs
exactly that many epochs, at most `epochs`, and fewer than `epochs`
whenever the first triggering epoch is strictly before the last one;
with `early_stopping` `None` or `0` the loop never breaks via the
early-stopping branch and all `epochs` epochs run. -/
theorem claim_C1_early_stopping (m : ModelState) (o : Oracles) (it : Idx)
    (iv : Option Idx) (epochs : Nat) (sb : Bool) (lp : Option String)
    (mon esm : String) (hb : m.built = true) :
    (∀ p e0, 0 < p → 1 ≤ e0 → e0 ≤ epochs → o.timeToES p e0 = true →
      (∀ e, 1 ≤ e → e < e0 → o.timeToES p e = false) →
      epochsRun (traceOf (train m o it iv epochs (some p) sb lp mon esm)) = e0
      ∧ (e0 < epochs →
          epochsRun (traceOf (train m o it iv epochs (some p) sb lp mon esm)) < epochs))
  ∧ (∀ es : Option Nat, pyTruthy es = false →
      epochsRun (traceOf (train m o it iv epochs es sb lp mon esm)) = epochs) := by
  constructor
  · intro p e0 hp h1 h2 htrig hfirst
    have hpne : (p != 0) = true := by
      simpa using Nat.pos_iff_ne_zero.mp hp
    have ha : 1 + (e0 - 1) = e0 := by omega
    have hbn : epochs - e0 + 1 + (e0 - 1) = epochs := by omega
    have h3 := List.range'_append_1 1 (e0 - 1) (epochs - e0 + 1)
    rw [ha, hbn] at h3
    have h4 : List.range' e0 (epochs - e0 + 1) = e0 :: List.range' (e0 + 1) (epochs - e0) :=
      List.range'_succ e0 (epochs - e0) 1
    have hsplit : List.range' 1 epochs
        = List.range' 1 (e0 - 1) ++ e0 :: List.range' (e0 + 1) (epochs - e0) := by
      rw [← h3, h4]
    have heq : epochsRun (traceOf (train m o it iv epochs (some p) sb lp mon esm)) = e0 := by
      rw [epochsRun_train m o it iv epochs (some p) sb lp mon esm hb]
      simp only [Option.getD_some, pyTruthy, hpne, Bool.true_and]
      have hmem : ∀ e ∈ List.range' 1 (e0 - 1), o.timeToES p e = false := by
        intro e he
        have := List.mem_range'_1.mp he
        exact hfirst e this.1 (by omega)
      rw [hsplit, loopUntil_firstTrig _ _ _ _ _ hmem htrig,
          countP_flatMap_ones _ _ _ (fun e _ => countP_record_epochEvents o iv.isSome sb _ e)]
      simp [List.length_append, List.length_range']
      omega
    exact ⟨heq, fun hlt => by rw [heq]; exact hlt⟩
  · intro es hes
    have hno : ∀ e ∈ List.range' 1 epochs,
        (pyTruthy es && o.timeToES (es.getD 0) e) = false := by
      intro e _
      simp [hes]
    rw [epochsRun_train m o it iv epochs es sb lp mon esm hb,
        loopUntil_noTrig _ _ _ hno,
        countP_flatMap_ones _ _ _ (fun e _ => countP_record_epochEvents o iv.isSome sb _ e)]
    exact List.length_range' ..

/-- Counterexample to C1 as stated: with `epochs = 1`,
`early_stopping = 1` and the early-stop predicate holding at the end of
epoch 1 (the first triggering epoch), the loop runs exactly 1 epoch —
which is not "fewer than `epochs`" epochs. -/
theorem claim_C1_counterexample :
    epochsRun (traceOf (train wModel wOraclesESAlways Idx.seq none 1 (some 1) true none
        "val_acc" "val_loss")) = 1
  ∧ wOraclesESAlways.timeToES 1 1 = true
  ∧ ¬ epochsRun (traceOf (train wModel wOraclesESAlways Idx.seq none 1 (some 1) true none
        "val_acc" "val_loss")) < 1 := by
  decide

/-- Witness for the amended C1: early stopping with patience 1 triggering
first at epoch 2 of 3 runs exactly 2 epochs. -/
theorem claim_C1_witness :
    epochsRun (traceOf (train wModel wOracles Idx.seq none 3 (some 1) true none
        "val_acc" "val_loss")) = 2 := by
  have h := (claim_C1_early_stopping wModel wOracles Idx.seq none 3 true none
      "val_acc" "val_loss" rfl).1 1 2 (by decide) (by decide) (by decide) (by decide)
    (fun e h1 h2 => by
      have : e = 1 := by omega
      subst this
      decide)
  exact h.1

theorem mem_save_epochEvents (o : Oracles) (val sb : Bool) (lp : String) (e : Nat)
    (pth : String) :
    Ev.save pth ∈ epochEvents o val sb lp e
      ↔ (sb = true ∧ o.saveBestAt e = true ∧ pth = lp) := by
  cases hd : o.hasDoBeforeTrain <;> cases hv2 : o.hasDoBeforeValidation <;>
    cases val <;> cases hsb : sb <;> cases hsa : o.saveBestAt e <;>
      simp [epochEvents, hd, hv2, hsb, hsa]

theorem no_fileops_epochEvents (o : Oracles) (val sb : Bool) (lp : String) (e : Nat)
    (pth : String) :
    Ev.load pth ∉ epochEvents o val sb lp e ∧ Ev.remove pth ∉ epochEvents o val sb lp e := by
  cases hd : o.hasDoBeforeTrain <;> cases hv2 : o.hasDoBeforeValidation <;>
    cases val <;> cases hsb : (sb && o.saveBestAt e) <;>
      simp [epochEvents, hd, hv2, hsb]

theorem no_fileops_epochEventsV2 (o : Oracles) (val : Bool) (e : Nat) (pth : String) :
    Ev.load pth ∉ epochEventsV2 o val e ∧ Ev.remove pth ∉ epochEventsV2 o val e := by
  cases hd : o.hasDoBeforeTrain <;> cases hv2 : o.hasDoBeforeValidation <;>
    cases val <;> simp [epochEventsV2, hd, hv2]

theorem runFS_append_ok (fs : List String) (l1 l2 : List Ev) (fs2 : List String)
    (h : runFS fs (l1 ++ l2) = Except.ok fs2) :
    ∃ f1, runFS fs l1 = Except.ok f1 ∧ runFS f1 l2 = Except.ok fs2 := by
  induction l1 generalizing fs with
  | nil => exact ⟨fs, rfl, h⟩
  | cons e es ih =>
    rw [List.cons_append] at h
    simp only [runFS] at h ⊢
    cases hs : stepFS fs e with
    | error msg => rw [hs] at h; cases h
    | ok f =>
      rw [hs] at h
      exact ih f h

theorem runFS_load_remove_last (t : List Ev) (np : String) (fs fs2 : List String)
    (h : runFS fs (t ++ [Ev.load np, Ev.remove np]) = Except.ok fs2) :
    np ∉ fs2 := by
  obtain ⟨f1, _, h2⟩ := runFS_append_ok fs t _ fs2 h
  by_cases hm : np ∈ f1
  · have hf : (f1.filter fun q => q != np) = fs2 := by
      simpa [runFS, stepFS, hm] using h2
    rw [← hf]
    simp [List.mem_filter]
  · simp [runFS, stepFS, hm] at h2

/-- Claim C3: during an epoch of `train`, a checkpoint is written if and
only if `save_best` is true and the history reports `save_best` for that
epoch, and the saved path is the `.h5`-normalized `log_path`; every save
event in the whole trace carries that path, so the history object alone
decides at which epochs checkpointing happens. -/
theorem claim_C3_checkpointing (m : ModelState) (o : Oracles) (it : Idx)
    (iv : Option Idx) (epochs : Nat) (es : Option Nat) (sb : Bool)
    (lp : Option String) (mon esm : String) (hb : m.built = true) :
    (∀ e pth,
      Ev.save pth
          ∈ epochEvents o iv.isSome sb (normalizeWeightPath ".h5" (resolvedLogPath m lp)) e
        ↔ (sb = true ∧ o.saveBestAt e = true
            ∧ pth = normalizeWeightPath ".h5" (resolvedLogPath m lp)))
  ∧ (∀ pth, Ev.save pth ∈ traceOf (train m o it iv epochs es sb lp mon esm)
        → pth = normalizeWeightPath ".h5" (resolvedLogPath m lp)) := by
  refine ⟨fun e pth => mem_save_epochEvents o iv.isSome sb _ e pth, ?_⟩
  intro pth hmem
  rw [train_ok m o it iv epochs es sb lp mon esm hb] at hmem
  simp only [traceOf, List.mem_append] at hmem
  rcases hmem with h | h
  · obtain ⟨e, _, hce⟩ := mem_loopUntil _ _ _ _ h
    exact ((mem_save_epochEvents o iv.isSome sb _ e pth).mp hce).2.2
  · cases sb <;> simp [saveTail] at h

/-- Witness for C3: with `save_best` and the history reporting an
improvement at epoch 1, the epoch-1 block writes the checkpoint at the
normalized path. -/
theorem claim_C3_witness :
    Ev.save (normalizeWeightPath ".h5" (resolvedLogPath wModel (some "a.h5")))
      ∈ epochEvents wOracles false true
          (normalizeWeightPath ".h5" (resolvedLogPath wModel (some "a.h5"))) 1 :=
  ((claim_C3_checkpointing wModel wOracles Idx.seq none 3 none true (some "a.h5")
      "val_acc" "val_loss" rfl).1 1 _).mpr ⟨rfl, by decide, rfl⟩

/-- Claim C4: with `save_best=True` both `train` and `train_v2` end by
reloading the weights from the checkpoint at the normalized `log_path`
and then deleting that file, so whenever the call returns (the file-system
run succeeds) the checkpoint file is no longer on disk; with
`save_best=False` neither a load nor a deletion occurs anywhere in the
call. -/
theorem claim_C4_checkpoint_cleanup (v : String) (m : ModelState) (o : Oracles)
    (it : Idx) (iv : Option Idx) (epochs : Nat) (es : Option Nat) (sb : Bool)
    (lp : Option String) (mon esm : String) (hb : m.built = true)
    (hv : pyStrGe v "2.2.0" = true) (np : String)
    (hnp : np = normalizeWeightPath ".h5" (resolvedLogPath m lp)) :
    (sb = true →
      (∃ pre, traceOf (train m o it iv epochs es sb lp mon esm)
          = pre ++ [Ev.load np, Ev.remove np])
      ∧ (∀ fs fs2, runFS fs (traceOf (train m o it iv epochs es sb lp mon esm))
            = Except.ok fs2 → np ∉ fs2)
      ∧ (∃ pre, traceOfV2 (train_v2 v m o it iv epochs es sb lp)
          = pre ++ [Ev.load np, Ev.remove np])
      ∧ (∀ fs fs2, runFS fs (traceOfV2 (train_v2 v m o it iv epochs es sb lp))
            = Except.ok fs2 → np ∉ fs2))
  ∧ (sb = false →
      (∀ pth, Ev.load pth ∉ traceOf (train m o it iv epochs es sb lp mon esm)
          ∧ Ev.remove pth ∉ traceOf (train m o it iv epochs es sb lp mon esm))
      ∧ (∀ pth, Ev.load pth ∉ traceOfV2 (train_v2 v m o it iv epochs es sb lp)
          ∧ Ev.remove pth ∉ traceOfV2 (train_v2 v m o it iv epochs es sb lp))) := by
  subst hnp
  constructor
  · intro hsb
    subst hsb
    have ht : traceOf (train m o it iv epochs es true lp mon esm)
        = loopUntil
            (epochEvents o iv.isSome true (normalizeWeightPath ".h5" (resolvedLogPath m lp)))
            (fun e => pyTruthy es && o.timeToES (es.getD 0) e) (List.range' 1 epochs)
          ++ [Ev.load (normalizeWeightPath ".h5" (resolvedLogPath m lp)),
              Ev.remove (normalizeWeightPath ".h5" (resolvedLogPath m lp))] := by
      rw [train_ok m o it iv epochs es true lp mon esm hb]
      simp [traceOf, saveTail]
    have htv : traceOfV2 (train_v2 v m o it iv epochs es true lp)
        = ([Ev.on_train_begin]
            ++ loopUntil (epochEventsV2 o iv.isSome) o.stopTraining (List.range epochs)
            ++ [Ev.on_train_end])
          ++ [Ev.load (normalizeWeightPath ".h5" (resolvedLogPath m lp)),
              Ev.remove (normalizeWeightPath ".h5" (resolvedLogPath m lp))] := by
      rw [train_v2_ok v m o it iv epochs es true lp hb hv]
      simp [traceOfV2, saveTail]
    refine ⟨⟨_, ht⟩, ?_, ⟨_, htv⟩, ?_⟩
    · intro fs fs2 hrun
      rw [ht] at hrun
      exact runFS_load_remove_last _ _ fs fs2 hrun
    · intro fs fs2 hrun
      rw [htv] at hrun
      exact runFS_load_remove_last _ _ fs fs2 hrun
  · intro hsb
    subst hsb
    constructor
    · intro pth
      rw [train_ok m o it iv epochs es false lp mon esm hb]
      simp only [traceOf, saveTail, if_neg (by simp : ¬ (false = true)), List.append_nil]
      constructor
      · intro h
        obtain ⟨e, _, hce⟩ := mem_loopUntil _ _ _ _ h
        exact (no_fileops_epochEvents o iv.isSome false _ e pth).1 hce
      · intro h
        obtain ⟨e, _, hce⟩ := mem_loopUntil _ _ _ _ h
        exact (no_fileops_epochEvents o iv.isSome false _ e pth).2 hce
    · intro pth
      rw [train_v2_ok v m o it iv epochs es false lp hb hv]
      simp only [traceOfV2, saveTail, if_neg (by simp : ¬ (false = true)), List.append_nil]
      constructor
      · intro h
        simp only [List.append_assoc, List.mem_append, List.mem_cons,
          List.mem_singleton] at h
        rcases h with h | h | h
        · simp at h
        · obtain ⟨e, _, hce⟩ := mem_loopUntil _ _ _ _ h
          exact (no_fileops_epochEventsV2 o iv.isSome e pth).1 hce
        · simp at h
      · intro h
        simp only [List.append_assoc, List.mem_append, List.mem_cons,
          List.mem_singleton] at h
        rcases h with h | h | h
        · simp at h
        · obtain ⟨e, _, hce⟩ := mem_loopUntil _ _ _ _ h
          exact (no_fileops_epochEventsV2 o iv.isSome e pth).2 hce
        · simp at h

/-- Witness for C4: running the concrete `train` call against an empty
disk leaves no checkpoint file behind. -/
theorem claim_C4_witness :
    "log/model_weights.h5" ∉ fsOf (runFS []
      (traceOf (train wModel wOracles Idx.seq none 3 none true none
        "val_acc" "val_loss"))) := by
  have h := claim_C4_checkpoint_cleanup "2.2.0" wModel wOracles Idx.seq none 3 none
    true none "val_acc" "val_loss" rfl (by decide) "log/model_weights.h5" (by decide)
  exact (h.1 rfl).2.1 [] _ rfl

theorem countP_valloss_epochEvents (o : Oracles) (sb : Bool) (lp : String) (e : Nat) :
    (epochEvents o true sb lp e).countP (isAddResults "val_loss") = 1 := by
  cases hd : o.hasDoBeforeTrain <;> cases hv2 : o.hasDoBeforeValidation <;>
    cases hsb : (sb && o.saveBestAt e) <;>
      simp [epochEvents, hd, hv2, hsb, List.countP_append, List.countP_cons, isAddResults]

theorem countP_valacc_epochEvents (o : Oracles) (sb : Bool) (lp : String) (e : Nat) :
    (epochEvents o true sb lp e).countP (isAddResults "val_acc") = 1 := by
  cases hd : o.hasDoBeforeTrain <;> cases hv2 : o.hasDoBeforeValidation <;>
    cases hsb : (sb && o.saveBestAt e) <;>
      simp [epochEvents, hd, hv2, hsb, List.countP_append, List.countP_cons, isAddResults]

theorem not_mem_valmetrics_epochEvents (o : Oracles) (sb : Bool) (lp : String) (e : Nat) :
    Ev.add_results "val_loss" ∉ epochEvents o false sb lp e
  ∧ Ev.add_results "val_acc" ∉ epochEvents o false sb lp e := by
  cases hd : o.hasDoBeforeTrain <;> cases hv2 : o.hasDoBeforeValidation <;>
    cases hsb : (sb && o.saveBestAt e) <;>
      simp [epochEvents, hd, hv2, hsb]

theorem countP_addResults_saveTail (mtr : String) (sb : Bool) (lp : String) :
    (saveTail sb lp).countP (isAddResults mtr) = 0 := by
  cases sb <;> simp [saveTail, List.countP_cons, isAddResults]

/-- Claim C7: when `train` is called without a validation set, the history
gets `acc` as its monitor metric and `loss` as its early-stop metric
(replacing the `monitor`/`early_stop_metric` arguments used at
construction), and no `val_loss`/`val_acc` result is ever added to the
history during the call; with a validation set the constructed names are
kept and `val_loss`/`val_acc` are added exactly once per executed
epoch. -/
theorem claim_C7_validation_metrics (m : ModelState) (o : Oracles) (it : Idx)
    (epochs : Nat) (es : Option Nat) (sb : Bool) (lp : Option String)
    (mon esm : String) (hb : m.built = true) :
    ((histOf (train m o it none epochs es sb lp mon esm)).monitor_metric = "acc"
      ∧ (histOf (train m o it none epochs es sb lp mon esm)).early_stop_metric = "loss"
      ∧ Ev.add_results "val_loss" ∉ traceOf (train m o it none epochs es sb lp mon esm)
      ∧ Ev.add_results "val_acc" ∉ traceOf (train m o it none epochs es sb lp mon esm))
  ∧ (∀ iv0 : Idx,
      (histOf (train m o it (some iv0) epochs es sb lp mon esm)).monitor_metric = mon
      ∧ (histOf (train m o it (some iv0) epochs es sb lp mon esm)).early_stop_metric = esm
      ∧ (∀ e,
          (epochEvents o true sb (normalizeWeightPath ".h5" (resolvedLogPath m lp)) e).countP
              (isAddResults "val_loss") = 1
          ∧ (epochEvents o true sb (normalizeWeightPath ".h5" (resolvedLogPath m lp)) e).countP
              (isAddResults "val_acc") = 1)
      ∧ (traceOf (train m o it (some iv0) epochs es sb lp mon esm)).countP
            (isAddResults "val_loss")
          = epochsRun (traceOf (train m o it (some iv0) epochs es sb lp mon esm))
      ∧ (traceOf (train m o it (some iv0) epochs es sb lp mon esm)).countP
            (isAddResults "val_acc")
          = epochsRun (traceOf (train m o it (some iv0) epochs es sb lp mon esm))) := by
  constructor
  · rw [train_ok m o it none epochs es sb lp mon esm hb]
    refine ⟨by simp [histOf, History.register_monitor_metric, History.register_early_stop_metric],
            by simp [histOf, History.register_monitor_metric, History.register_early_stop_metric],
            ?_, ?_⟩
    · simp only [traceOf, List.mem_append]
      rintro (h | h)
      · obtain ⟨e, _, hce⟩ := mem_loopUntil _ _ _ _ h
        exact (not_mem_valmetrics_epochEvents o sb _ e).1 (by simpa using hce)
      · cases sb <;> simp [saveTail] at h
    · simp only [traceOf, List.mem_append]
      rintro (h | h)
      · obtain ⟨e, _, hce⟩ := mem_loopUntil _ _ _ _ h
        exact (not_mem_valmetrics_epochEvents o sb _ e).2 (by simpa using hce)
      · cases sb <;> simp [saveTail] at h
  · intro iv0
    rw [train_ok m o it (some iv0) epochs es sb lp mon esm hb]
    refine ⟨by simp [histOf], by simp [histOf],
            fun e => ⟨countP_valloss_epochEvents o sb _ e, countP_valacc_epochEvents o sb _ e⟩,
            ?_, ?_⟩
    · obtain ⟨l2, _, heq⟩ := loopUntil_exists_flatMap
        (epochEvents o (some iv0).isSome sb (normalizeWeightPath ".h5" (resolvedLogPath m lp)))
        (fun e => pyTruthy es && o.timeToES (es.getD 0) e) (List.range' 1 epochs)
      simp only [traceOf, epochsRun, List.countP_append, heq]
      rw [countP_flatMap_ones _ _ _ (fun e _ => by
            simpa using countP_valloss_epochEvents o sb
              (normalizeWeightPath ".h5" (resolvedLogPath m lp)) e),
          countP_flatMap_ones _ _ _ (fun e _ => by
            simpa using countP_record_epochEvents o (some iv0).isSome sb
              (normalizeWeightPath ".h5" (resolvedLogPath m lp)) e),
          countP_addResults_saveTail, countP_record_saveTail]
    · obtain ⟨l2, _, heq⟩ := loopUntil_exists_flatMap
        (epochEvents o (some iv0).isSome sb (normalizeWeightPath ".h5" (resolvedLogPath m lp)))
        (fun e => pyTruthy es && o.timeToES (es.getD 0) e) (List.range' 1 epochs)
      simp only [traceOf, epochsRun, List.countP_append, heq]
      rw [countP_flatMap_ones _ _ _ (fun e _ => by
            simpa using countP_valacc_epochEvents o sb
              (normalizeWeightPath ".h5" (resolvedLogPath m lp)) e),
          countP_flatMap_ones _ _ _ (fun e _ => by
            simpa using countP_record_epochEvents o (some iv0).isSome sb
              (normalizeWeightPath ".h5" (resolvedLogPath m lp)) e),
          countP_addResults_saveTail, countP_record_saveTail]

/-- Witness for C7: the concrete no-validation call registers `acc` as the
monitor metric. -/
theorem claim_C7_witness :
    (histOf (train wModel wOracles Idx.seq none 3 none true none
        "val_acc" "val_loss")).monitor_metric = "acc" :=
  (claim_C7_validation_metrics wModel wOracles Idx.seq 3 none true none
    "val_acc" "val_loss" rfl).1.1

theorem countP_trainMarks_epochEventsV2 (o : Oracles) (val : Bool) (e : Nat) :
    (epochEventsV2 o val e).countP isOnTrainBegin = 0
  ∧ (epochEventsV2 o val e).countP isOnTrainEnd = 0 := by
  cases hd : o.hasDoBeforeTrain <;> cases hv2 : o.hasDoBeforeValidation <;>
    cases val <;>
      simp [epochEventsV2, hd, hv2, List.countP_append, List.countP_cons,
        isOnTrainBegin, isOnTrainEnd]

theorem countP_trainMarks_saveTail (sb : Bool) (lp : String) :
    (saveTail sb lp).countP isOnTrainBegin = 0
  ∧ (saveTail sb lp).countP isOnTrainEnd = 0 := by
  cases sb <;> simp [saveTail, List.countP_cons, isOnTrainBegin, isOnTrainEnd]

/-- Claim C6: `train_v2` calls `on_train_begin` exactly once, as the very
first action; each executed epoch block (for epochs `0, 1, ...` in
increasing order) runs `on_epoch_begin(e)`, then `on_train_batch_begin(0)`,
then the forward pass, then `on_train_batch_end(0)`, then
`on_epoch_end(e)`, in that order; the loop exits right after the first
epoch with `model.stop_training` true (running all `epochs` epochs when it
never becomes true); and `on_train_end` is called exactly once, after the
loop. -/
theorem claim_C6_callback_order (v : String) (m : ModelState) (o : Oracles)
    (it : Idx) (iv : Option Idx) (epochs : Nat) (es : Option Nat) (sb : Bool)
    (lp : Option String) (hb : m.built = true) (hv : pyStrGe v "2.2.0" = true) :
    (∀ e, ∃ q1 q2 q3 q4,
      epochEventsV2 o iv.isSome e
        = [Ev.on_epoch_begin e] ++ q1 ++ [Ev.on_train_batch_begin 0] ++ q2
          ++ [Ev.forward true] ++ q3 ++ [Ev.on_train_batch_end 0] ++ q4
          ++ [Ev.on_epoch_end e])
  ∧ ((∀ e, e < epochs → o.stopTraining e = false) →
      traceOfV2 (train_v2 v m o it iv epochs es sb lp)
        = [Ev.on_train_begin] ++ (List.range epochs).flatMap (epochEventsV2 o iv.isSome)
          ++ [Ev.on_train_end]
          ++ saveTail sb (normalizeWeightPath ".h5" (resolvedLogPath m lp)))
  ∧ (∀ e0, e0 < epochs → o.stopTraining e0 = true →
      (∀ e, e < e0 → o.stopTraining e = false) →
      traceOfV2 (train_v2 v m o it iv epochs es sb lp)
        = [Ev.on_train_begin] ++ (List.range (e0 + 1)).flatMap (epochEventsV2 o iv.isSome)
          ++ [Ev.on_train_end]
          ++ saveTail sb (normalizeWeightPath ".h5" (resolvedLogPath m lp)))
  ∧ ((traceOfV2 (train_v2 v m o it iv epochs es sb lp)).countP isOnTrainBegin = 1
      ∧ (traceOfV2 (train_v2 v m o it iv epochs es sb lp)).head? = some Ev.on_train_begin
      ∧ (traceOfV2 (train_v2 v m o it iv epochs es sb lp)).countP isOnTrainEnd = 1) := by
  refine ⟨?_, ?_, ?_, ?_⟩
  · intro e
    refine ⟨(if o.hasDoBeforeTrain then [Ev.do_before_train] else []), [],
      [Ev.seq_epoch_end],
      (if iv.isSome then
          (if o.hasDoBeforeValidation then [Ev.do_before_validation] else [])
            ++ [Ev.forward false]
        else []), ?_⟩
    simp [epochEventsV2]
  · intro hns
    rw [train_v2_ok v m o it iv epochs es sb lp hb hv]
    have hno : ∀ e ∈ List.range epochs, o.stopTraining e = false := fun e he =>
      hns e (List.mem_range.mp he)
    rw [traceOfV2, loopUntil_noTrig _ _ _ hno]
  · intro e0 he0 hstop hbefore
    rw [train_v2_ok v m o it iv epochs es sb lp hb hv]
    have ha : 0 + e0 = e0 := by omega
    have hbn : epochs - e0 + e0 = epochs := by omega
    have h3 := List.range'_append_1 0 e0 (epochs - e0)
    rw [ha, hbn] at h3
    have hk : epochs - e0 = (epochs - e0 - 1) + 1 := by omega
    have h4 : List.range' e0 (epochs - e0)
        = e0 :: List.range' (e0 + 1) (epochs - e0 - 1) := by
      rw [hk]
      exact List.range'_succ e0 (epochs - e0 - 1) 1
    have hsplit : List.range epochs
        = List.range' 0 e0 ++ e0 :: List.range' (e0 + 1) (epochs - e0 - 1) := by
      rw [List.range_eq_range' epochs, ← h3, h4]
    have hmem : ∀ e ∈ List.range' 0 e0, o.stopTraining e = false := by
      intro e he
      have := List.mem_range'_1.mp he
      exact hbefore e (by omega)
    have hrange : List.range (e0 + 1) = List.range' 0 e0 ++ [e0] := by
      have h5 := List.range'_append_1 0 e0 1
      have h6 : List.range' (0 + e0) 1 = [e0] := by
        rw [ha]
        exact List.range'_one
      have h7 : 1 + e0 = e0 + 1 := by omega
      rw [h6, h7] at h5
      rw [List.range_eq_range' (e0 + 1), ← h5]
    rw [traceOfV2, hsplit, loopUntil_firstTrig _ _ _ _ _ hmem hstop, hrange]
  · rw [train_v2_ok v m o it iv epochs es sb lp hb hv]
    obtain ⟨l2, _, heq⟩ := loopUntil_exists_flatMap (epochEventsV2 o iv.isSome)
      o.stopTraining (List.range epochs)
    refine ⟨?_, by simp [traceOfV2], ?_⟩
    · simp only [traceOfV2, heq, List.countP_append,
        (countP_trainMarks_saveTail sb _).1]
      rw [countP_flatMap_zero _ _ _ (fun e _ => (countP_trainMarks_epochEventsV2 o iv.isSome e).1)]
      simp [List.countP_cons, isOnTrainBegin, isOnTrainEnd]
    · simp only [traceOfV2, heq, List.countP_append,
        (countP_trainMarks_saveTail sb _).2]
      rw [countP_flatMap_zero _ _ _ (fun e _ => (countP_trainMarks_epochEventsV2 o iv.isSome e).2)]
      simp [List.countP_cons, isOnTrainBegin, isOnTrainEnd]

/-- Witness for C6: the concrete `train_v2` call emits `on_train_begin`
exactly once. -/
theorem claim_C6_witness :
    (traceOfV2 (train_v2 "2.2.0" wModel wOraclesStop1 Idx.seq none 3 none true
        none)).countP isOnTrainBegin = 1 :=
  (claim_C6_callback_order "2.2.0" wModel wOraclesStop1 Idx.seq none 3 none true
    none rfl (by decide)).2.2.2.1
